import Mathlib

/-!
Verification of the decision core of the voice-identity playback system:
the confidence engine (`scripts/confidence_engine.py`) and the playback
decider (`scripts/hybrid_playback_decider.py`).

Python floats are modelled as exact rationals (`ℚ`) for the confidence
engine and as reals (`ℝ`) for the embedding arithmetic of the decider
(which needs square roots).  Python's `round`, documented as round-half-
to-even, is modelled exactly on `ℚ`.  Optional/coercible arguments are
modelled by explicit inductive types; the registry, version-selection
and age-classification collaborators (not part of the sources) are
parameters of the decider's environment, and the two file reads are
modelled as explicit file states.
-/

namespace VoiceConf

/-- Round-half-to-even of a rational to an integer, the semantics of
Python's builtin `round` on exact values. -/
def roundHalfEven (q : ℚ) : ℤ :=
  if q - ⌊q⌋ < 1/2 then ⌊q⌋
  else if 1/2 < q - ⌊q⌋ then ⌊q⌋ + 1
  else if Even ⌊q⌋ then ⌊q⌋ else ⌊q⌋ + 1

/-- Python's `round(q, ndigits)` idealized on exact rationals.  The
half-even tie case on exact rationals differs from CPython's behavior
on binary doubles, which never sit exactly on a decimal halfway point
unless dyadic; the confidence-engine results proved with this function
do not depend on the tie direction.  The decider's alpha rounding,
where the tie case is decisive, instead uses the binary64-faithful
`Decider.fl64` and `Decider.pyFloatRound`. -/
def pyRound (ndigits : ℕ) (q : ℚ) : ℚ :=
  (roundHalfEven (q * 10 ^ ndigits) : ℚ) / 10 ^ ndigits

/-- `clamp` from `scripts/confidence_engine.py`:
`max(lo, min(x, hi))`; the engine always calls it with `lo=0, hi=1`. -/
def clamp (x lo hi : ℚ) : ℚ := max lo (min x hi)

/-- A Python value passed where a float is expected: absent (`None`),
an actual number, or a value that `float()` cannot convert. -/
inductive PyFloatArg
  | null
  | num (q : ℚ)
  | unparseable
deriving DecidableEq

/-- `_safe_float` from `scripts/confidence_engine.py`: value of
`float(x)` when it succeeds, `default` when `x` is `None` or the
conversion raises. -/
def safeFloat (x : PyFloatArg) (default : ℚ) : ℚ :=
  match x with
  | .null => default
  | .num q => q
  | .unparseable => default

/-- `compute_confidence` from `scripts/confidence_engine.py`, with
`history_count` an integer as in Python. -/
def compute_confidence (duration_s : ℚ) (snr_db : Option ℚ)
    (speaker_similarity device_match : PyFloatArg) (history_count : ℤ) : ℚ :=
  let duration_score := clamp ((duration_s - 8) / 20) 0 1
  let snr_score : ℚ :=
    match snr_db with
    | none => 0.4
    | some s => if s ≤ 0 then 0.3 else if s < 10 then 0.3 + (s / 10) * 0.4 else 0.7
  let speaker_score := clamp (safeFloat speaker_similarity 0) 0 1
  let device_score := clamp (safeFloat device_match 0) 0 1
  let history_score : ℚ :=
    if history_count ≥ 3 then 1.0
    else if history_count = 2 then 0.7
    else if history_count = 1 then 0.4
    else 0.2
  let confidence :=
    0.30 * speaker_score + 0.20 * duration_score + 0.15 * snr_score +
      0.15 * device_score + 0.20 * history_score
  pyRound 3 (clamp confidence 0 1)

/-- Spec-side duration sub-score, from the claim's wording:
`clamp((duration_s - 8.0)/20.0)`. -/
def specDurationScore (duration_s : ℚ) : ℚ := clamp ((duration_s - 8.0) / 20.0) 0 1

/-- Spec-side SNR sub-score, from the claim's wording: 0.4 if missing,
0.3 at or below 0 dB, linear `0.3 + (snr/10)*0.4` strictly between 0
and 10 dB, 0.7 at or above 10 dB. -/
def specSnrScore (snr_db : Option ℚ) : ℚ :=
  match snr_db with
  | none => 0.4
  | some s => if s ≤ 0 then 0.3 else if s < 10 then 0.3 + (s / 10.0) * 0.4 else 0.7

/-- Spec-side speaker/device sub-score, from the claim's wording: the
raw value coerced to float (missing/unparseable to 0.0), clamped to
[0, 1]. -/
def specIdentityScore (x : PyFloatArg) : ℚ := clamp (safeFloat x 0.0) 0 1

/-- Spec-side history sub-score, from the claim's wording: 0.2, 0.4,
0.7, 1.0 for 0, 1, 2, at-least-3 prior accepted versions. -/
def specHistoryScore : ℕ → ℚ
  | 0 => 0.2
  | 1 => 0.4
  | 2 => 0.7
  | _ + 3 => 1.0

/-- Spec-side confidence score, assembled exactly as the claim words
it: the weighted sum `0.30*speaker + 0.20*duration + 0.15*snr +
0.15*device + 0.20*history`, clamped to [0, 1], rounded to 3 decimal
places. -/
def specConfidence (duration_s : ℚ) (snr_db : Option ℚ)
    (speaker_similarity device_match : PyFloatArg) (history_count : ℕ) : ℚ :=
  pyRound 3 (clamp
    (0.30 * specIdentityScore speaker_similarity +
      0.20 * specDurationScore duration_s +
      0.15 * specSnrScore snr_db +
      0.15 * specIdentityScore device_match +
      0.20 * specHistoryScore history_count) 0 1)

end VoiceConf

namespace Decider

open VoiceConf (pyRound roundHalfEven)

/-- A calendar date, the result of parsing a `YYYY-MM-DD` or ISO-8601
string (string parsing itself is delegated to the Python standard
library; an unparseable or missing date is `Option.none` upstream). -/
structure Date where
  year : ℤ
  month : ℤ
  day : ℤ
deriving DecidableEq

/-- `_calculate_age` from `scripts/hybrid_playback_decider.py`, on
already-parsed dates: whole-year difference, minus one when the
recording's (month, day) precedes the birth (month, day) in Python's
lexicographic tuple order, with the sanity range check returning `none`
outside [0, 120]. -/
def calculateAge (dob : Option Date) (recorded_dt : Option Date) : Option ℤ :=
  match dob, recorded_dt with
  | some birth, some d =>
    let age0 := d.year - birth.year
    let age :=
      if d.month < birth.month ∨ (d.month = birth.month ∧ d.day < birth.day)
      then age0 - 1 else age0
    if age < 0 ∨ 120 < age then none else some age
  | _, _ => none

/-- One voice version record, as read by the decider: `embedding_path`
(a falsy value is `none` or the empty string), `age_at_recording`, and
the parsed `recorded_utc` date (`none` when missing or unparseable,
mirroring `_parse_recorded_date`). -/
structure VoiceVersion where
  embedding_path : Option String
  age_at_recording : Option ℤ
  recorded : Option Date
deriving DecidableEq

/-- Result of `select_best_version`, the version-selection collaborator:
a dict with a `mode` entry, a chosen version and an optional age gap. -/
structure Selection where
  mode : Option String
  version : VoiceVersion
  age_gap : Option ℤ

/-- Age relation returned by the `classify_age_relation` collaborator. -/
inductive AgeRel
  | past
  | future
  | same
deriving DecidableEq

/-- State of one embedding file on disk: absent (`np.load` raises
`FileNotFoundError`, the one exception class the caller handles),
present but failing to load as a float array
(`np.load(...).astype("float32")` raises some other exception), or a
1-D float vector.  A file that loads successfully as a 0-d or higher-
dimensional array is outside this state space: a 0-d base embedding
makes `np.linalg.norm` raise exactly as `corrupt` does, and N-D numpy
broadcasting semantics are not modelled. -/
inductive LoadResult
  | missing
  | corrupt
  | ok (v : List ℝ)

/-- State of the `embeddings/age_deltas.npy` file: absent, unreadable
(or not a dict), or a dict of named 1-D float vectors.  In the source,
`np.asarray` also lets scalar (0-d) and higher-dimensional dict values
through `_load_age_deltas`; a 0-d delta value then raises an uncaught
`IndexError` at the `delta.shape[0]` dimension check of
`decide_playback_mode`.  That crash state is not representable here:
this state space models only dicts of 1-D vectors. -/
inductive DeltaFile
  | missing
  | corrupt
  | ok (entries : List (String × List ℝ))

/-- `_load_age_deltas` from `scripts/hybrid_playback_decider.py`:
`none` when the file is missing, unreadable, or not a dict; otherwise
the dict with every value coerced to a float array. -/
def loadAgeDeltas (f : DeltaFile) : Option (List (String × List ℝ)) :=
  match f with
  | .missing => none
  | .corrupt => none
  | .ok entries => some entries

/-- Euclidean norm of a float vector, `np.linalg.norm` on 1-D input. -/
noncomputable def l2norm (v : List ℝ) : ℝ :=
  Real.sqrt (v.map (fun x => x ^ 2)).sum

/-- Normalization step `v / (np.linalg.norm(v) + 1e-12)` used for both
the base and the aged embedding. -/
noncomputable def l2normalize (v : List ℝ) : List ℝ :=
  v.map (fun x => x / (l2norm v + 1e-12))

/-- The decider's read-only environment: the registry data for the user
(version list, latest version, `date_of_birth`), the two collaborator
functions, and the states of the embedding files and the age-delta
file. -/
structure Env where
  versions : List VoiceVersion
  latest : Option VoiceVersion
  dob : Option Date
  select : List VoiceVersion → ℤ → Selection
  classify : ℤ → ℤ → AgeRel
  loadEmb : String → LoadResult
  deltas : DeltaFile

/-- A playback decision: the dict returned by `decide_playback_mode`.
Optional dict entries (`age_gap`, `expected_path`, the mismatch
dimensions) are `none` in the branches that do not set them. -/
inductive Decision
  | nothing (reason : String)
  | recorded (version : VoiceVersion) (reason : String) (age_gap : Option ℤ)
      (expected_path : Option String) (delta_dim emb_dim : Option ℕ)
  | aged (embedding : List ℝ) (base_version : VoiceVersion) (target_age : ℤ)
      (alpha : ℚ) (relation : AgeRel) (reason : String)

/-- Rounding of a nonnegative rational to the nearest IEEE-754
binary64 value (round-to-nearest, ties-to-even), with unbounded
exponent range: the magnitudes rounded in this code are ordinary, so
overflow and subnormals do not arise.  This models the `years / 40.0`
float division and the value CPython's `round` works on — the binary
double, not the exact decimal ratio.  Only ever applied to nonnegative
values here; nonpositive inputs map to 0. -/
def fl64 (q : ℚ) : ℚ :=
  if q ≤ 0 then 0
  else (roundHalfEven (q / 2 ^ (Int.log 2 q - 52)) : ℚ) * 2 ^ (Int.log 2 q - 52)

/-- CPython's `round(x, ndigits)` on a binary64 value `x` (held as its
exact rational value): the exact value of the double is rounded
half-to-even to `ndigits` decimal digits — a tie arises only when that
exact binary value sits on a decimal halfway point — and the resulting
decimal is converted to the nearest binary64. -/
def pyFloatRound (ndigits : ℕ) (x : ℚ) : ℚ :=
  fl64 ((roundHalfEven (x * 10 ^ ndigits) : ℚ) / 10 ^ ndigits)

/-- Resolution of the base age in `decide_playback_mode`: the stored
`age_at_recording` when present, otherwise derivation from
`date_of_birth` and the recorded date. -/
def resolveBaseAge (env : Env) (base_version : VoiceVersion) : Option ℤ :=
  match base_version.age_at_recording with
  | some a => some a
  | none => calculateAge env.dob base_version.recorded

/-- `decide_playback_mode` from `scripts/hybrid_playback_decider.py`.
The result is `Except.error` when the Python function raises the one
uncaught exception this state space can reach: a base-embedding read
that fails other than by `FileNotFoundError` (only that exception class
is handled).  Further uncaught-exception paths of the source lie
outside the modelled states (see `LoadResult` and `DeltaFile`): a 0-d
base embedding raises at `np.linalg.norm`, and a 0-d age-delta value
raises at the `delta.shape[0]` dimension check.  The `expected_path`
entries are modelled relative to the project root (the source prefixes
the machine-dependent `PROJECT_ROOT`). -/
noncomputable def decide_playback_mode (env : Env) (target_age : ℤ) :
    Except String Decision :=
  if env.versions = [] then .ok (.nothing "no_voice_versions")
  else
    let selection := env.select env.versions target_age
    if selection.mode = some "RECORDED" then
      .ok (.recorded selection.version "real_voice_close_to_target"
        selection.age_gap none none none)
    else
      match env.latest with
      | none => .ok (.nothing "no_embedding_available")
      | some base_version =>
        match base_version.embedding_path with
        | none => .ok (.nothing "no_embedding_available")
        | some path =>
          if path = "" then .ok (.nothing "no_embedding_available")
          else
            match resolveBaseAge env base_version with
            | none =>
              .ok (.recorded base_version "missing_base_age_fallback_recorded"
                none none none none)
            | some base_age =>
              let relation := env.classify base_age target_age
              if relation = .same then
                .ok (.recorded base_version "same_age_requested" none none none none)
              else
                match env.loadEmb path with
                | .missing =>
                  .ok (.recorded base_version
                    "missing_base_embedding_fallback_recorded" none (some path)
                    none none)
                | .corrupt => .error "np.load: unhandled exception"
                | .ok raw =>
                  let base_emb := l2normalize raw
                  match loadAgeDeltas env.deltas with
                  | none =>
                    .ok (.recorded base_version
                      "missing_age_deltas_fallback_recorded" none
                      (some "embeddings/age_deltas.npy") none none)
                  | some age_deltas =>
                    if age_deltas = [] then
                      .ok (.recorded base_version
                        "missing_age_deltas_fallback_recorded" none
                        (some "embeddings/age_deltas.npy") none none)
                    else
                      let delta_key :=
                        if relation = .future then "children_to_adult"
                        else "adult_to_children"
                      match age_deltas.lookup delta_key with
                      | none =>
                        .ok (.recorded base_version
                          ("missing_delta:" ++ delta_key) none none none none)
                      | some delta =>
                        if delta.length ≠ base_emb.length then
                          .ok (.recorded base_version
                            "delta_dim_mismatch_fallback_recorded" none none
                            (some delta.length) (some base_emb.length))
                        else
                          let years : ℤ := |base_age - target_age|
                          let alpha : ℚ := min (fl64 ((years : ℚ) / 40)) 1
                          let aged_emb := l2normalize
                            (List.zipWith (· + ·) base_emb
                              (delta.map (fun x => (alpha : ℝ) * x)))
                          .ok (.aged aged_emb base_version target_age
                            (pyFloatRound 2 alpha) relation "age_delta_applied")

/-- A version record with no data, for concrete collaborator stubs. -/
def dummyVersion : VoiceVersion := ⟨none, none, none⟩

/-- Environment of a user with no voice versions at all. -/
def envEmpty : Env :=
  ⟨[], none, none, fun _ _ => ⟨none, dummyVersion, none⟩, fun _ _ => .same,
    fun _ => .missing, .missing⟩

/-- Version-selection collaborator stub that never reports RECORDED. -/
def selStub : List VoiceVersion → ℤ → Selection :=
  fun _ _ => ⟨some "AGED_CANDIDATE", dummyVersion, none⟩

/-- Age-classification collaborator stub: younger base is `future`,
older base is `past`, equal is `same`. -/
def classifyStub : ℤ → ℤ → AgeRel :=
  fun base_age target_age =>
    if base_age < target_age then .future
    else if target_age < base_age then .past
    else .same

/-- A base version recorded at stored age 8 with an embedding path. -/
def vAged : VoiceVersion := ⟨some "emb.npy", some 8, none⟩

/-- Benign environment: one version (stored age 8), a unit base
embedding, and zero delta vectors for both aging directions. -/
def envAged : Env :=
  ⟨[vAged], some vAged, none, selStub, classifyStub,
    fun p => if p = "emb.npy" then .ok [1] else .missing,
    .ok [("children_to_adult", [0]), ("adult_to_children", [0])]⟩

/-- The alpha value that `decide_playback_mode envAged 40` stores. -/
def alphaA : ℚ := pyFloatRound 2 (min (fl64 (((|(8 : ℤ) - 40| : ℤ) : ℚ) / 40)) 1)

/-- The aged embedding that `decide_playback_mode envAged 40` returns. -/
noncomputable def agedEmbA : List ℝ :=
  l2normalize (List.zipWith (· + ·) (l2normalize [1])
    (([0] : List ℝ).map
      (fun x => ((min (fl64 (((|(8 : ℤ) - 40| : ℤ) : ℚ) / 40)) 1 : ℚ) : ℝ) * x)))

/-- A latest version carrying no `embedding_path` at all. -/
def vNoPath : VoiceVersion := ⟨none, some 8, none⟩

/-- Environment whose latest version has no embedding path. -/
def envNoPath : Env :=
  ⟨[vNoPath], some vNoPath, none, selStub, classifyStub, fun _ => .missing, .missing⟩

/-- A latest version with a path but no resolvable age. -/
def vNoAge : VoiceVersion := ⟨some "emb.npy", none, none⟩

/-- Environment whose latest version has an embedding path but neither a
stored age nor the data to derive one. -/
def envNoAge : Env :=
  ⟨[vNoAge], some vNoAge, none, selStub, classifyStub, fun _ => .missing, .missing⟩

/-- Environment whose base embedding file exists but is unreadable. -/
def envCorrupt : Env :=
  ⟨[vAged], some vAged, none, selStub, classifyStub, fun _ => .corrupt, .missing⟩

/-- The `alpha` entry of a decision, when the decision is AGED. -/
def alphaOf : Except String Decision → Option ℚ
  | .ok (.aged _ _ _ al _ _) => some al
  | _ => none

/-- A version with an out-of-range stored age (300 years). -/
def vBigAge : VoiceVersion := ⟨some "emb.npy", some 300, none⟩

/-- Environment whose latest version stores the absurd age 300. -/
def envBigAge : Env :=
  ⟨[vBigAge], some vBigAge, none, selStub, classifyStub,
    fun p => if p = "emb.npy" then .ok [1] else .missing,
    .ok [("children_to_adult", [0]), ("adult_to_children", [0])]⟩

/-- The L2 norm of the embedding entry of a decision, when AGED. -/
noncomputable def embNormOf : Except String Decision → Option ℝ
  | .ok (.aged emb _ _ _ _ _) => some (l2norm emb)
  | _ => none

/-- A version with stored age 0 (40 years from the target age 40). -/
def vZeroAge : VoiceVersion := ⟨some "emb.npy", some 0, none⟩

/-- Environment whose base embedding is the unit vector `[1]` but whose
`children_to_adult` delta is `[-1]`: at alpha 1 the aged sum cancels to
nearly zero. -/
def envCancel : Env :=
  ⟨[vZeroAge], some vZeroAge, none, selStub, classifyStub,
    fun p => if p = "emb.npy" then .ok [1] else .missing,
    .ok [("children_to_adult", [-1]), ("adult_to_children", [0])]⟩

end Decider

namespace VoiceConf

theorem floor_le_roundHalfEven (q : ℚ) : ⌊q⌋ ≤ roundHalfEven q := by
  unfold roundHalfEven
  split_ifs <;> omega

theorem roundHalfEven_le_floor_add_one (q : ℚ) : roundHalfEven q ≤ ⌊q⌋ + 1 := by
  unfold roundHalfEven
  split_ifs <;> omega

theorem roundHalfEven_mono {x y : ℚ} (hxy : x ≤ y) :
    roundHalfEven x ≤ roundHalfEven y := by
  rcases lt_or_eq_of_le (Int.floor_le_floor hxy) with hf | hf
  · calc roundHalfEven x ≤ ⌊x⌋ + 1 := roundHalfEven_le_floor_add_one x
      _ ≤ ⌊y⌋ := by omega
      _ ≤ roundHalfEven y := floor_le_roundHalfEven y
  · have hr : x - (⌊y⌋ : ℚ) ≤ y - ⌊y⌋ := by
      rw [← hf]; exact sub_le_sub_right hxy _
    unfold roundHalfEven
    rw [hf]
    split_ifs <;> first | omega | contradiction | (push_neg at *; linarith)

theorem roundHalfEven_le_int {q : ℚ} {B : ℤ} (h : q ≤ B) : roundHalfEven q ≤ B := by
  have hfl : ⌊q⌋ ≤ B := by
    have h2 := Int.floor_le_floor h
    simpa using h2
  rcases lt_or_eq_of_le hfl with hlt | heq
  · have := roundHalfEven_le_floor_add_one q
    omega
  · have hqB : q ≤ (⌊q⌋ : ℚ) := by rw [heq]; exact_mod_cast h
    have h12 : q - (⌊q⌋ : ℚ) < 1/2 := by linarith
    unfold roundHalfEven
    rw [if_pos h12]
    omega

theorem int_le_roundHalfEven {q : ℚ} {B : ℤ} (h : (B : ℚ) ≤ q) : B ≤ roundHalfEven q := by
  have h1 : B ≤ ⌊q⌋ := Int.le_floor.mpr h
  have h2 := floor_le_roundHalfEven q
  omega

theorem pyRound_mono (n : ℕ) {x y : ℚ} (hxy : x ≤ y) :
    pyRound n x ≤ pyRound n y := by
  unfold pyRound
  have hp : (0 : ℚ) < 10 ^ n := by positivity
  gcongr
  exact_mod_cast roundHalfEven_mono (mul_le_mul_of_nonneg_right hxy (le_of_lt hp))

theorem pyRound_nonneg (n : ℕ) {q : ℚ} (hq : 0 ≤ q) : 0 ≤ pyRound n q := by
  unfold pyRound
  have hp : (0 : ℚ) < 10 ^ n := by positivity
  apply div_nonneg ?_ (le_of_lt hp)
  exact_mod_cast int_le_roundHalfEven (B := 0) (by positivity)

theorem pyRound_le_one (n : ℕ) {q : ℚ} (hq : q ≤ 1) : pyRound n q ≤ 1 := by
  unfold pyRound
  have hp : (0 : ℚ) < 10 ^ n := by positivity
  rw [div_le_one hp]
  have hb : q * 10 ^ n ≤ ((10 ^ n : ℤ) : ℚ) := by
    push_cast
    calc q * 10 ^ n ≤ 1 * 10 ^ n := by
          exact mul_le_mul_of_nonneg_right hq (le_of_lt hp)
      _ = 10 ^ n := one_mul _
  have := roundHalfEven_le_int hb
  exact_mod_cast this

theorem specHistoryScore_eq (n : ℕ) :
    (if (n : ℤ) ≥ 3 then (1.0 : ℚ) else if (n : ℤ) = 2 then 0.7
      else if (n : ℤ) = 1 then 0.4 else 0.2) = specHistoryScore n := by
  match n with
  | 0 => norm_num [specHistoryScore]
  | 1 => norm_num [specHistoryScore]
  | 2 => norm_num [specHistoryScore]
  | m + 3 =>
    have h : ((m + 3 : ℕ) : ℤ) ≥ 3 := by push_cast; omega
    rw [if_pos h]
    simp [specHistoryScore]

theorem clamp01_nonneg (x : ℚ) : 0 ≤ clamp x 0 1 := le_max_left _ _

theorem clamp01_le_one (x : ℚ) : clamp x 0 1 ≤ 1 :=
  max_le (by norm_num) (min_le_right _ _)

theorem clamp01_mono {x y : ℚ} (hxy : x ≤ y) : clamp x 0 1 ≤ clamp y 0 1 :=
  max_le_max le_rfl (min_le_min hxy le_rfl)

theorem historyScore_mono {h h' : ℤ} (hh : h ≤ h') :
    (if h ≥ 3 then (1.0 : ℚ) else if h = 2 then 0.7
      else if h = 1 then 0.4 else 0.2) ≤
    (if h' ≥ 3 then (1.0 : ℚ) else if h' = 2 then 0.7
      else if h' = 1 then 0.4 else 0.2) := by
  split_ifs <;> first | (exfalso; omega) | norm_num

/-- C1: `compute_confidence` equals the claim's formula — the weighted
sum `0.30*speaker + 0.20*duration + 0.15*snr + 0.15*device +
0.20*history` of the five sub-scores described by the claim, clamped to
[0, 1] and rounded to 3 decimal places — for every duration, optional
SNR, optional/unparseable speaker-similarity and device-match values,
and every (natural) history count. -/
theorem C1_confidence_weighted_sum (d : ℚ) (s : Option ℚ) (sp dv : PyFloatArg)
    (h : ℕ) :
    compute_confidence d s sp dv (h : ℤ) = specConfidence d s sp dv h := by
  have e1 : (10.0 : ℚ) = 10 := by norm_num
  have e2 : (8.0 : ℚ) = 8 := by norm_num
  have e3 : (20.0 : ℚ) = 20 := by norm_num
  have e4 : (0.0 : ℚ) = 0 := by norm_num
  have hh := specHistoryScore_eq h
  simp only [compute_confidence, specConfidence, specDurationScore, specSnrScore,
    specIdentityScore, ← hh, e1, e2, e3, e4]

/-- C4: `compute_confidence` is total (a Lean function on all modelled
inputs, including all-`None` optional fields) and always returns a value
in [0, 1] that is an integer multiple of 1/1000, i.e. rounded to 3
decimal places. -/
theorem C4_confidence_total_in_range (d : ℚ) (s : Option ℚ)
    (sp dv : PyFloatArg) (h : ℤ) :
    0 ≤ compute_confidence d s sp dv h ∧ compute_confidence d s sp dv h ≤ 1 ∧
      ∃ k : ℤ, compute_confidence d s sp dv h = (k : ℚ) / 1000 := by
  obtain ⟨C, hC⟩ : ∃ C : ℚ, compute_confidence d s sp dv h = pyRound 3 (clamp C 0 1) :=
    ⟨_, rfl⟩
  rw [hC]
  refine ⟨pyRound_nonneg 3 (clamp01_nonneg C), pyRound_le_one 3 (clamp01_le_one C),
    ⟨roundHalfEven (clamp C 0 1 * 10 ^ 3), ?_⟩⟩
  unfold pyRound
  norm_num

/-- C9: `compute_confidence` is monotone in the identity signals — with
all other arguments fixed, a larger numeric `speaker_similarity` never
decreases the output, and a larger `history_count` never decreases the
output. -/
theorem C9_confidence_monotone (d : ℚ) (s : Option ℚ) (sp dv : PyFloatArg)
    (q q' : ℚ) (h h' hist : ℤ) (hq : q ≤ q') (hh : h ≤ h') :
    compute_confidence d s (.num q) dv hist ≤
      compute_confidence d s (.num q') dv hist ∧
    compute_confidence d s sp dv h ≤ compute_confidence d s sp dv h' := by
  constructor
  · apply pyRound_mono
    apply clamp01_mono
    have : clamp (safeFloat (.num q) 0) 0 1 ≤ clamp (safeFloat (.num q') 0) 0 1 := by
      simpa [safeFloat] using clamp01_mono hq
    gcongr
  · apply pyRound_mono
    apply clamp01_mono
    have := historyScore_mono hh
    gcongr

/-- Witness for C9 at a concrete input. -/
theorem C9_confidence_monotone_witness :
    compute_confidence 10 none (.num 0.2) .null 5 ≤
      compute_confidence 10 none (.num 0.9) .null 5 ∧
    compute_confidence 10 none (.num 0.2) .null 0 ≤
      compute_confidence 10 none (.num 0.2) .null 2 :=
  C9_confidence_monotone 10 none (.num 0.2) .null 0.2 0.9 0 2 5
    (by norm_num) (by omega)

theorem pyRound_exact {n : ℕ} {q : ℚ} {k : ℤ} (h : q * 10 ^ n = (k : ℚ)) :
    pyRound n q = q := by
  have hp : (10 : ℚ) ^ n ≠ 0 := by positivity
  unfold pyRound roundHalfEven
  rw [h, Int.floor_intCast]
  rw [if_pos (by norm_num : (k : ℚ) - k < 1/2)]
  rw [← h]
  field_simp

theorem roundHalfEven_intCast (n : ℤ) : roundHalfEven (n : ℚ) = n := by
  unfold roundHalfEven
  rw [Int.floor_intCast]
  rw [if_pos (by norm_num : ((n : ℚ) - n) < 1/2)]

theorem roundHalfEven_eq_of_lt_half {q : ℚ} {n : ℤ} (hf : ⌊q⌋ = n)
    (hr : q - n < 1/2) : roundHalfEven q = n := by
  unfold roundHalfEven
  rw [hf, if_pos hr]

theorem roundHalfEven_eq_of_half_lt {q : ℚ} {n : ℤ} (hf : ⌊q⌋ = n)
    (hr : 1/2 < q - n) : roundHalfEven q = n + 1 := by
  unfold roundHalfEven
  rw [hf, if_neg (by linarith), if_pos hr]

end VoiceConf

namespace Decider

open VoiceConf (pyRound roundHalfEven roundHalfEven_intCast
  roundHalfEven_eq_of_lt_half roundHalfEven_eq_of_half_lt
  roundHalfEven_le_int int_le_roundHalfEven)

/-- C5: base-age derivation on parsed dates is whole-year arithmetic
with the birthday-not-yet-reached adjustment (one year subtracted when
the recording's month/day lexicographically precedes the birth
month/day), derived ages outside [0, 120] are treated as unresolved
(`none`), and in particular dob 1990-03-15 gives age 33 for a recording
dated 2024-03-14 and age 34 for one dated 2024-03-15. -/
theorem C5_base_age_derivation :
    (∀ b r : Date,
      calculateAge (some b) (some r) =
        (let whole := r.year - b.year
         let adjusted :=
           if r.month < b.month ∨ (r.month = b.month ∧ r.day < b.day)
           then whole - 1 else whole
         if 0 ≤ adjusted ∧ adjusted ≤ 120 then some adjusted else none)) ∧
    calculateAge (some ⟨1990, 3, 15⟩) (some ⟨2024, 3, 14⟩) = some 33 ∧
    calculateAge (some ⟨1990, 3, 15⟩) (some ⟨2024, 3, 15⟩) = some 34 := by
  refine ⟨fun b r => ?_, by decide, by decide⟩
  show (if (if r.month < b.month ∨ (r.month = b.month ∧ r.day < b.day)
        then r.year - b.year - 1 else r.year - b.year) < 0 ∨
      120 < (if r.month < b.month ∨ (r.month = b.month ∧ r.day < b.day)
        then r.year - b.year - 1 else r.year - b.year) then none
    else some (if r.month < b.month ∨ (r.month = b.month ∧ r.day < b.day)
        then r.year - b.year - 1 else r.year - b.year)) = _
  dsimp only
  split_ifs <;> first | rfl | (exfalso; omega)

/-- C6: with an empty version history, `decide_playback_mode` returns
exactly the `NONE` decision with reason `no_voice_versions`, for every
target age and every state of everything else. -/
theorem C6_empty_history_none (env : Env) (target_age : ℤ)
    (h : env.versions = []) :
    decide_playback_mode env target_age = .ok (.nothing "no_voice_versions") := by
  unfold decide_playback_mode
  rw [if_pos h]

/-- Witness for C6 at a concrete empty-history environment. -/
theorem C6_empty_history_none_witness :
    decide_playback_mode envEmpty 30 = .ok (.nothing "no_voice_versions") :=
  C6_empty_history_none envEmpty 30 rfl

theorem l2normalize_length (v : List ℝ) : (l2normalize v).length = v.length :=
  List.length_map _ _

theorem log2_eq_of_between {x : ℚ} {L : ℤ} (hx : 0 < x)
    (h1 : (2 : ℚ) ^ L ≤ x) (h2 : x < 2 ^ (L + 1)) : Int.log 2 x = L := by
  have hA : L ≤ Int.log 2 x := by
    rw [← Int.zpow_le_iff_le_log (by norm_num) hx]
    exact_mod_cast h1
  have hB : Int.log 2 x < L + 1 := by
    rw [← Int.lt_zpow_iff_log_lt (by norm_num) hx]
    exact_mod_cast h2
  omega

theorem fl64_eval {x : ℚ} {L m : ℤ} (hx : 0 < x)
    (h1 : (2 : ℚ) ^ L ≤ x) (h2 : x < 2 ^ (L + 1))
    (hm : roundHalfEven (x / 2 ^ (L - 52)) = m) :
    fl64 x = (m : ℚ) * 2 ^ (L - 52) := by
  unfold fl64
  rw [if_neg (not_le.mpr hx), log2_eq_of_between hx h1 h2, hm]

theorem fl64_one : fl64 1 = 1 := by
  have hm : roundHalfEven ((1 : ℚ) / 2 ^ ((0 : ℤ) - 52)) = 4503599627370496 := by
    have hv : ((1 : ℚ) / 2 ^ ((0 : ℤ) - 52)) = ((4503599627370496 : ℤ) : ℚ) := by
      norm_num [zpow_sub₀, zpow_neg]
    rw [hv, roundHalfEven_intCast]
  have h := fl64_eval (show (0 : ℚ) < 1 by norm_num)
    (show (2 : ℚ) ^ (0 : ℤ) ≤ 1 by norm_num)
    (show (1 : ℚ) < 2 ^ ((0 : ℤ) + 1) by norm_num)
    hm
  rw [h]
  norm_num [zpow_sub₀, zpow_neg]

theorem fl64_four_fifths :
    fl64 (4/5) = 7205759403792794 / 9007199254740992 := by
  have hfl : ⌊(36028797018963968/5 : ℚ)⌋ = 7205759403792793 := by
    rw [Int.floor_eq_iff]
    norm_num
  have hm : roundHalfEven ((4/5 : ℚ) / 2 ^ ((-1 : ℤ) - 52)) = 7205759403792794 := by
    have hv : ((4/5 : ℚ) / 2 ^ ((-1 : ℤ) - 52)) = 36028797018963968/5 := by
      norm_num [zpow_sub₀, zpow_neg]
    rw [hv, roundHalfEven_eq_of_half_lt hfl (by push_cast; norm_num)]
    norm_num
  have h := fl64_eval (show (0 : ℚ) < 4/5 by norm_num)
    (show (2 : ℚ) ^ (-1 : ℤ) ≤ 4/5 by norm_num [zpow_neg])
    (show (4/5 : ℚ) < 2 ^ ((-1 : ℤ) + 1) by norm_num)
    hm
  rw [h]
  norm_num [zpow_sub₀, zpow_neg]

theorem fl64_one_fortieth :
    fl64 (1/40) = 7205759403792794 / 288230376151711744 := by
  have hfl : ⌊(36028797018963968/5 : ℚ)⌋ = 7205759403792793 := by
    rw [Int.floor_eq_iff]
    norm_num
  have hm : roundHalfEven ((1/40 : ℚ) / 2 ^ ((-6 : ℤ) - 52)) = 7205759403792794 := by
    have hv : ((1/40 : ℚ) / 2 ^ ((-6 : ℤ) - 52)) = 36028797018963968/5 := by
      norm_num [zpow_sub₀, zpow_neg]
    rw [hv, roundHalfEven_eq_of_half_lt hfl (by push_cast; norm_num)]
    norm_num
  have h := fl64_eval (show (0 : ℚ) < 1/40 by norm_num)
    (show (2 : ℚ) ^ (-6 : ℤ) ≤ 1/40 by norm_num [zpow_neg])
    (show (1/40 : ℚ) < 2 ^ ((-6 : ℤ) + 1) by norm_num [zpow_neg])
    hm
  rw [h]
  norm_num [zpow_sub₀, zpow_neg]

theorem fl64_three_hundredths :
    fl64 (3/100) = 8646911284551352 / 288230376151711744 := by
  have hfl : ⌊(216172782113783808/25 : ℚ)⌋ = 8646911284551352 := by
    rw [Int.floor_eq_iff]
    norm_num
  have hm : roundHalfEven ((3/100 : ℚ) / 2 ^ ((-6 : ℤ) - 52)) = 8646911284551352 := by
    have hv : ((3/100 : ℚ) / 2 ^ ((-6 : ℤ) - 52)) = 216172782113783808/25 := by
      norm_num [zpow_sub₀, zpow_neg]
    rw [hv, roundHalfEven_eq_of_lt_half hfl (by push_cast; norm_num)]
  have h := fl64_eval (show (0 : ℚ) < 3/100 by norm_num)
    (show (2 : ℚ) ^ (-6 : ℤ) ≤ 3/100 by norm_num [zpow_neg])
    (show (3/100 : ℚ) < 2 ^ ((-6 : ℤ) + 1) by norm_num [zpow_neg])
    hm
  rw [h]
  norm_num [zpow_sub₀, zpow_neg]

theorem one_le_fl64 {x : ℚ} (hx : 1 ≤ x) : 1 ≤ fl64 x := by
  have hx0 : 0 < x := lt_of_lt_of_le one_pos hx
  unfold fl64
  rw [if_neg (not_le.mpr hx0)]
  have hL : 0 ≤ Int.log 2 x := by
    have h01 : Int.log 2 (1 : ℚ) ≤ Int.log 2 x := Int.log_mono_right one_pos hx
    simpa [Int.log_one_right] using h01
  have h2L : (2 : ℚ) ^ Int.log 2 x ≤ x := by
    exact_mod_cast Int.zpow_log_le_self (by norm_num) hx0
  have hpow : (0 : ℚ) < 2 ^ (Int.log 2 x - 52) := by positivity
  have hq : ((4503599627370496 : ℤ) : ℚ) ≤ x / 2 ^ (Int.log 2 x - 52) := by
    rw [le_div_iff₀ hpow]
    have hsplit : ((4503599627370496 : ℤ) : ℚ) * 2 ^ (Int.log 2 x - 52) =
        2 ^ Int.log 2 x := by
      have h52 : ((4503599627370496 : ℤ) : ℚ) = 2 ^ (52 : ℤ) := by norm_num
      rw [h52, ← zpow_add₀ (by norm_num : (2 : ℚ) ≠ 0)]
      rw [show (52 : ℤ) + (Int.log 2 x - 52) = Int.log 2 x from by omega]
    rw [hsplit]
    exact h2L
  have hrhe := int_le_roundHalfEven hq
  have hstep : ((4503599627370496 : ℤ) : ℚ) * 2 ^ (Int.log 2 x - 52) ≤
      (roundHalfEven (x / 2 ^ (Int.log 2 x - 52)) : ℚ) * 2 ^ (Int.log 2 x - 52) := by
    apply mul_le_mul_of_nonneg_right ?_ hpow.le
    exact_mod_cast hrhe
  calc (1 : ℚ) = 2 ^ (0 : ℤ) := by norm_num
    _ ≤ 2 ^ Int.log 2 x := by
        apply zpow_le_zpow_right₀ (by norm_num : (1 : ℚ) ≤ 2) hL
    _ = ((4503599627370496 : ℤ) : ℚ) * 2 ^ (Int.log 2 x - 52) := by
        have h52 : ((4503599627370496 : ℤ) : ℚ) = 2 ^ (52 : ℤ) := by norm_num
        rw [h52, ← zpow_add₀ (by norm_num : (2 : ℚ) ≠ 0)]
        rw [show (52 : ℤ) + (Int.log 2 x - 52) = Int.log 2 x from by omega]
    _ ≤ _ := hstep

theorem fl64_le_one {x : ℚ} (hx : x ≤ 1) : fl64 x ≤ 1 := by
  rcases le_or_lt x 0 with h0 | h0
  · unfold fl64
    rw [if_pos h0]
    norm_num
  rcases eq_or_lt_of_le hx with heq | hlt
  · rw [heq, fl64_one]
  have hL : Int.log 2 x < 0 := by
    have hlt2 : x < ((2 : ℕ) : ℚ) ^ (0 : ℤ) := by push_cast; simpa using hlt
    exact (Int.lt_zpow_iff_log_lt (by norm_num) h0).mp hlt2
  unfold fl64
  rw [if_neg (not_le.mpr h0)]
  have h2 : x < (2 : ℚ) ^ (Int.log 2 x + 1) := by
    exact_mod_cast Int.lt_zpow_succ_log_self (by norm_num) x
  have hpow : (0 : ℚ) < 2 ^ (Int.log 2 x - 52) := by positivity
  have hsplit : ((9007199254740992 : ℤ) : ℚ) * 2 ^ (Int.log 2 x - 52) =
      2 ^ (Int.log 2 x + 1) := by
    have h53 : ((9007199254740992 : ℤ) : ℚ) = 2 ^ (53 : ℤ) := by norm_num
    rw [h53, ← zpow_add₀ (by norm_num : (2 : ℚ) ≠ 0)]
    rw [show (53 : ℤ) + (Int.log 2 x - 52) = Int.log 2 x + 1 from by omega]
  have hq : x / 2 ^ (Int.log 2 x - 52) ≤ ((9007199254740992 : ℤ) : ℚ) := by
    rw [div_le_iff₀ hpow, hsplit]
    exact h2.le
  have hrhe := roundHalfEven_le_int hq
  calc (roundHalfEven (x / 2 ^ (Int.log 2 x - 52)) : ℚ) * 2 ^ (Int.log 2 x - 52)
      ≤ ((9007199254740992 : ℤ) : ℚ) * 2 ^ (Int.log 2 x - 52) := by
        apply mul_le_mul_of_nonneg_right ?_ hpow.le
        exact_mod_cast hrhe
    _ = 2 ^ (Int.log 2 x + 1) := hsplit
    _ ≤ 2 ^ (0 : ℤ) := by
        apply zpow_le_zpow_right₀ (by norm_num : (1 : ℚ) ≤ 2) (by omega)
    _ = 1 := by norm_num

theorem pyFloatRound_le_one {x : ℚ} (hx : x ≤ 1) : pyFloatRound 2 x ≤ 1 := by
  unfold pyFloatRound
  apply fl64_le_one
  have h1 : x * 10 ^ 2 ≤ ((100 : ℤ) : ℚ) := by push_cast; linarith
  have h2 := roundHalfEven_le_int h1
  rw [div_le_one (by norm_num : (0 : ℚ) < 10 ^ 2)]
  exact_mod_cast h2

theorem pyFloatRound_two_one : pyFloatRound 2 1 = 1 := by
  unfold pyFloatRound
  rw [show ((1 : ℚ) * 10 ^ 2) = ((100 : ℤ) : ℚ) from by norm_num,
    roundHalfEven_intCast,
    show (((100 : ℤ) : ℚ) / 10 ^ 2) = 1 from by norm_num,
    fl64_one]

section StepLemmas

variable {env : Env} {t : ℤ} {base : VoiceVersion} {p : String} {a : ℤ}

variable {raw : List ℝ} {ds : List (String × List ℝ)} {delta : List ℝ}

theorem decide_eq_empty (h1 : env.versions = []) :
    decide_playback_mode env t = .ok (.nothing "no_voice_versions") := by
  simp [decide_playback_mode, h1]

theorem decide_eq_selected (h1 : env.versions ≠ [])
    (h2 : (env.select env.versions t).mode = some "RECORDED") :
    decide_playback_mode env t =
      .ok (.recorded (env.select env.versions t).version
        "real_voice_close_to_target" (env.select env.versions t).age_gap
        none none none) := by
  simp [decide_playback_mode, h1, h2]

theorem decide_eq_no_latest (h1 : env.versions ≠ [])
    (h2 : (env.select env.versions t).mode ≠ some "RECORDED")
    (h3 : env.latest = none) :
    decide_playback_mode env t = .ok (.nothing "no_embedding_available") := by
  simp [decide_playback_mode, h1, h2, h3]

theorem decide_eq_no_path (h1 : env.versions ≠ [])
    (h2 : (env.select env.versions t).mode ≠ some "RECORDED")
    (h3 : env.latest = some base) (h4 : base.embedding_path = none) :
    decide_playback_mode env t = .ok (.nothing "no_embedding_available") := by
  simp [decide_playback_mode, h1, h2, h3, h4]

theorem decide_eq_empty_path (h1 : env.versions ≠ [])
    (h2 : (env.select env.versions t).mode ≠ some "RECORDED")
    (h3 : env.latest = some base) (h4 : base.embedding_path = some "") :
    decide_playback_mode env t = .ok (.nothing "no_embedding_available") := by
  simp [decide_playback_mode, h1, h2, h3, h4]

theorem decide_eq_no_age (h1 : env.versions ≠ [])
    (h2 : (env.select env.versions t).mode ≠ some "RECORDED")
    (h3 : env.latest = some base) (h4 : base.embedding_path = some p)
    (h5 : p ≠ "") (h6 : resolveBaseAge env base = none) :
    decide_playback_mode env t =
      .ok (.recorded base "missing_base_age_fallback_recorded" none none none none) := by
  simp [decide_playback_mode, h1, h2, h3, h4, h5, h6]

theorem decide_eq_same_age (h1 : env.versions ≠ [])
    (h2 : (env.select env.versions t).mode ≠ some "RECORDED")
    (h3 : env.latest = some base) (h4 : base.embedding_path = some p)
    (h5 : p ≠ "") (h6 : resolveBaseAge env base = some a)
    (h7 : env.classify a t = .same) :
    decide_playback_mode env t =
      .ok (.recorded base "same_age_requested" none none none none) := by
  simp [decide_playback_mode, h1, h2, h3, h4, h5, h6, h7]

theorem decide_eq_emb_missing (h1 : env.versions ≠ [])
    (h2 : (env.select env.versions t).mode ≠ some "RECORDED")
    (h3 : env.latest = some base) (h4 : base.embedding_path = some p)
    (h5 : p ≠ "") (h6 : resolveBaseAge env base = some a)
    (h7 : env.classify a t ≠ .same) (h8 : env.loadEmb p = .missing) :
    decide_playback_mode env t =
      .ok (.recorded base "missing_base_embedding_fallback_recorded" none
        (some p) none none) := by
  simp [decide_playback_mode, h1, h2, h3, h4, h5, h6, h7, h8]

theorem decide_eq_emb_corrupt (h1 : env.versions ≠ [])
    (h2 : (env.select env.versions t).mode ≠ some "RECORDED")
    (h3 : env.latest = some base) (h4 : base.embedding_path = some p)
    (h5 : p ≠ "") (h6 : resolveBaseAge env base = some a)
    (h7 : env.classify a t ≠ .same) (h8 : env.loadEmb p = .corrupt) :
    decide_playback_mode env t = .error "np.load: unhandled exception" := by
  simp [decide_playback_mode, h1, h2, h3, h4, h5, h6, h7, h8]

theorem decide_eq_no_deltas (h1 : env.versions ≠ [])
    (h2 : (env.select env.versions t).mode ≠ some "RECORDED")
    (h3 : env.latest = some base) (h4 : base.embedding_path = some p)
    (h5 : p ≠ "") (h6 : resolveBaseAge env base = some a)
    (h7 : env.classify a t ≠ .same) (h8 : env.loadEmb p = .ok raw)
    (h9 : loadAgeDeltas env.deltas = none) :
    decide_playback_mode env t =
      .ok (.recorded base "missing_age_deltas_fallback_recorded" none
        (some "embeddings/age_deltas.npy") none none) := by
  simp [decide_playback_mode, h1, h2, h3, h4, h5, h6, h7, h8, h9]

theorem decide_eq_empty_deltas (h1 : env.versions ≠ [])
    (h2 : (env.select env.versions t).mode ≠ some "RECORDED")
    (h3 : env.latest = some base) (h4 : base.embedding_path = some p)
    (h5 : p ≠ "") (h6 : resolveBaseAge env base = some a)
    (h7 : env.classify a t ≠ .same) (h8 : env.loadEmb p = .ok raw)
    (h9 : loadAgeDeltas env.deltas = some []) :
    decide_playback_mode env t =
      .ok (.recorded base "missing_age_deltas_fallback_recorded" none
        (some "embeddings/age_deltas.npy") none none) := by
  simp [decide_playback_mode, h1, h2, h3, h4, h5, h6, h7, h8, h9]

theorem decide_eq_missing_key (h1 : env.versions ≠ [])
    (h2 : (env.select env.versions t).mode ≠ some "RECORDED")
    (h3 : env.latest = some base) (h4 : base.embedding_path = some p)
    (h5 : p ≠ "") (h6 : resolveBaseAge env base = some a)
    (h7 : env.classify a t ≠ .same) (h8 : env.loadEmb p = .ok raw)
    (h9 : loadAgeDeltas env.deltas = some ds) (h10 : ds ≠ [])
    (h11 : ds.lookup (if env.classify a t = .future then "children_to_adult"
      else "adult_to_children") = none) :
    decide_playback_mode env t =
      .ok (.recorded base
        ("missing_delta:" ++ (if env.classify a t = .future then "children_to_adult"
          else "adult_to_children")) none none none none) := by
  simp [decide_playback_mode, h1, h2, h3, h4, h5, h6, h7, h8, h9, h10, h11]

theorem decide_eq_dim_mismatch (h1 : env.versions ≠ [])
    (h2 : (env.select env.versions t).mode ≠ some "RECORDED")
    (h3 : env.latest = some base) (h4 : base.embedding_path = some p)
    (h5 : p ≠ "") (h6 : resolveBaseAge env base = some a)
    (h7 : env.classify a t ≠ .same) (h8 : env.loadEmb p = .ok raw)
    (h9 : loadAgeDeltas env.deltas = some ds) (h10 : ds ≠ [])
    (h11 : ds.lookup (if env.classify a t = .future then "children_to_adult"
      else "adult_to_children") = some delta)
    (h12 : delta.length ≠ raw.length) :
    decide_playback_mode env t =
      .ok (.recorded base "delta_dim_mismatch_fallback_recorded" none none
        (some delta.length) (some (l2normalize raw).length)) := by
  have h12' : delta.length ≠ (l2normalize raw).length := by
    rw [l2normalize_length]; exact h12
  simp [decide_playback_mode, h1, h2, h3, h4, h5, h6, h7, h8, h9, h10, h11, h12']

theorem decide_eq_aged (h1 : env.versions ≠ [])
    (h2 : (env.select env.versions t).mode ≠ some "RECORDED")
    (h3 : env.latest = some base) (h4 : base.embedding_path = some p)
    (h5 : p ≠ "") (h6 : resolveBaseAge env base = some a)
    (h7 : env.classify a t ≠ .same) (h8 : env.loadEmb p = .ok raw)
    (h9 : loadAgeDeltas env.deltas = some ds) (h10 : ds ≠ [])
    (h11 : ds.lookup (if env.classify a t = .future then "children_to_adult"
      else "adult_to_children") = some delta)
    (h12 : delta.length = raw.length) :
    decide_playback_mode env t =
      .ok (.aged
        (l2normalize (List.zipWith (· + ·) (l2normalize raw)
          (delta.map (fun x => ((min (fl64 (((|a - t| : ℤ) : ℚ) / 40)) 1 : ℚ) : ℝ) * x))))
        base t (pyFloatRound 2 (min (fl64 (((|a - t| : ℤ) : ℚ) / 40)) 1))
        (env.classify a t) "age_delta_applied") := by
  have h12' : delta.length = (l2normalize raw).length := by
    rw [l2normalize_length]; exact h12
  simp [decide_playback_mode, h1, h2, h3, h4, h5, h6, h7, h8, h9, h10, h11, h12']

end StepLemmas

theorem decide_aged_inv {env : Env} {t : ℤ} {emb : List ℝ} {bv : VoiceVersion}
    {ta : ℤ} {al : ℚ} {rel : AgeRel} {rsn : String}
    (h : decide_playback_mode env t = .ok (.aged emb bv ta al rel rsn)) :
    ∃ a v, resolveBaseAge env bv = some a ∧ ta = t ∧
      al = pyFloatRound 2 (min (fl64 (((|a - t| : ℤ) : ℚ) / 40)) 1) ∧
      emb = l2normalize v := by
  by_cases h1 : env.versions = []
  · rw [decide_eq_empty h1] at h; simp at h
  by_cases h2 : (env.select env.versions t).mode = some "RECORDED"
  · rw [decide_eq_selected h1 h2] at h; simp at h
  rcases h3 : env.latest with _ | base
  · rw [decide_eq_no_latest h1 h2 h3] at h; simp at h
  rcases h4 : base.embedding_path with _ | p
  · rw [decide_eq_no_path h1 h2 h3 h4] at h; simp at h
  by_cases h5 : p = ""
  · subst h5
    rw [decide_eq_empty_path h1 h2 h3 h4] at h; simp at h
  rcases h6 : resolveBaseAge env base with _ | a
  · rw [decide_eq_no_age h1 h2 h3 h4 h5 h6] at h; simp at h
  by_cases h7 : env.classify a t = .same
  · rw [decide_eq_same_age h1 h2 h3 h4 h5 h6 h7] at h; simp at h
  rcases h8 : env.loadEmb p with _ | _ | raw
  · rw [decide_eq_emb_missing h1 h2 h3 h4 h5 h6 h7 h8] at h; simp at h
  · rw [decide_eq_emb_corrupt h1 h2 h3 h4 h5 h6 h7 h8] at h; simp at h
  rcases h9 : loadAgeDeltas env.deltas with _ | ds
  · rw [decide_eq_no_deltas h1 h2 h3 h4 h5 h6 h7 h8 h9] at h; simp at h
  by_cases h10 : ds = []
  · subst h10
    rw [decide_eq_empty_deltas h1 h2 h3 h4 h5 h6 h7 h8 h9] at h; simp at h
  rcases h11 : ds.lookup (if env.classify a t = .future then "children_to_adult"
      else "adult_to_children") with _ | delta
  · rw [decide_eq_missing_key h1 h2 h3 h4 h5 h6 h7 h8 h9 h10 h11] at h; simp at h
  by_cases h12 : delta.length = raw.length
  · rw [decide_eq_aged h1 h2 h3 h4 h5 h6 h7 h8 h9 h10 h11 h12] at h
    simp only [Except.ok.injEq, Decision.aged.injEq] at h
    obtain ⟨he, hbv, hta, hal, hrel, hrsn⟩ := h
    subst hbv
    exact ⟨a, _, h6, hta.symm, hal.symm, he.symm⟩
  · rw [decide_eq_dim_mismatch h1 h2 h3 h4 h5 h6 h7 h8 h9 h10 h11 h12] at h
    simp at h

theorem decide_envAged :
    decide_playback_mode envAged 40 =
      .ok (.aged agedEmbA vAged 40 alphaA .future "age_delta_applied") := by
  have hcl : envAged.classify 8 40 = .future := by
    simp [envAged, classifyStub]
  have h := decide_eq_aged
    (show envAged.versions ≠ [] by simp [envAged])
    (show (envAged.select envAged.versions 40).mode ≠ some "RECORDED" by
      simp [envAged, selStub])
    (show envAged.latest = some vAged from rfl)
    (show vAged.embedding_path = some "emb.npy" from rfl)
    (show "emb.npy" ≠ "" by simp)
    (show resolveBaseAge envAged vAged = some 8 from rfl)
    (show envAged.classify 8 40 ≠ .same by simp [hcl])
    (show envAged.loadEmb "emb.npy" = .ok [1] by simp [envAged])
    (show loadAgeDeltas envAged.deltas =
      some [("children_to_adult", [0]), ("adult_to_children", [0])] from rfl)
    (by simp)
    (show List.lookup (if envAged.classify 8 40 = .future then "children_to_adult"
        else "adult_to_children")
        [("children_to_adult", [0]), ("adult_to_children", [0])] = some [0] by
      simp [hcl, List.lookup])
    (show ([0] : List ℝ).length = ([1] : List ℝ).length from rfl)
  rw [h, hcl]
  rfl

/-- C2 (amended): once the decider is past the version-selection step
with a latest version that has a non-empty embedding path, and the base
embedding file is not unreadable, every failure branch (unresolved base
age, missing base embedding file, missing/unparseable/empty age-delta
set, absent delta key, delta dimension mismatch — as well as the
same-age branch) returns a RECORDED decision anchored on the latest
real version, and the only other outcome is AGED; mode NONE and errors
are impossible past that point.  The missing-embedding-path branch is
excluded: it returns NONE (see the counterexample). -/
theorem C2_failure_branches_recorded (env : Env) (t : ℤ)
    (base : VoiceVersion) (p : String)
    (h1 : env.versions ≠ [])
    (h2 : (env.select env.versions t).mode ≠ some "RECORDED")
    (h3 : env.latest = some base)
    (h4 : base.embedding_path = some p) (h5 : p ≠ "")
    (hnc : env.loadEmb p ≠ .corrupt) :
    ∃ d, decide_playback_mode env t = .ok d ∧
      ((∃ emb al rel, d = .aged emb base t al rel "age_delta_applied") ∨
       (∃ rsn g ep dd ed, d = .recorded base rsn g ep dd ed)) := by
  rcases h6 : resolveBaseAge env base with _ | a
  · exact ⟨_, decide_eq_no_age h1 h2 h3 h4 h5 h6,
      Or.inr ⟨_, _, _, _, _, rfl⟩⟩
  by_cases h7 : env.classify a t = .same
  · exact ⟨_, decide_eq_same_age h1 h2 h3 h4 h5 h6 h7,
      Or.inr ⟨_, _, _, _, _, rfl⟩⟩
  rcases h8 : env.loadEmb p with _ | _ | raw
  · exact ⟨_, decide_eq_emb_missing h1 h2 h3 h4 h5 h6 h7 h8,
      Or.inr ⟨_, _, _, _, _, rfl⟩⟩
  · exact absurd h8 hnc
  rcases h9 : loadAgeDeltas env.deltas with _ | ds
  · exact ⟨_, decide_eq_no_deltas h1 h2 h3 h4 h5 h6 h7 h8 h9,
      Or.inr ⟨_, _, _, _, _, rfl⟩⟩
  by_cases h10 : ds = []
  · subst h10
    exact ⟨_, decide_eq_empty_deltas h1 h2 h3 h4 h5 h6 h7 h8 h9,
      Or.inr ⟨_, _, _, _, _, rfl⟩⟩
  rcases h11 : ds.lookup (if env.classify a t = .future then "children_to_adult"
      else "adult_to_children") with _ | delta
  · exact ⟨_, decide_eq_missing_key h1 h2 h3 h4 h5 h6 h7 h8 h9 h10 h11,
      Or.inr ⟨_, _, _, _, _, rfl⟩⟩
  by_cases h12 : delta.length = raw.length
  · exact ⟨_, decide_eq_aged h1 h2 h3 h4 h5 h6 h7 h8 h9 h10 h11 h12,
      Or.inl ⟨_, _, _, rfl⟩⟩
  · exact ⟨_, decide_eq_dim_mismatch h1 h2 h3 h4 h5 h6 h7 h8 h9 h10 h11 h12,
      Or.inr ⟨_, _, _, _, _, rfl⟩⟩

/-- Counterexample to C2 as stated: with a non-empty history and a
non-RECORDED selection, the missing-embedding-path failure branch
returns mode NONE — not a RECORDED fallback. -/
theorem C2_counterexample_no_path_is_none :
    envNoPath.versions ≠ [] ∧
    (envNoPath.select envNoPath.versions 40).mode ≠ some "RECORDED" ∧
    decide_playback_mode envNoPath 40 = .ok (.nothing "no_embedding_available") := by
  refine ⟨by simp [envNoPath], by simp [envNoPath, selStub], ?_⟩
  exact decide_eq_no_path (by simp [envNoPath]) (by simp [envNoPath, selStub])
    rfl rfl

/-- Witness for the amended C2 at a concrete environment whose base
age is unresolvable. -/
theorem C2_failure_branches_recorded_witness :
    ∃ d, decide_playback_mode envNoAge 40 = .ok d ∧
      ((∃ emb al rel, d = .aged emb vNoAge 40 al rel "age_delta_applied") ∨
       (∃ rsn g ep dd ed, d = .recorded vNoAge rsn g ep dd ed)) :=
  C2_failure_branches_recorded envNoAge 40 vNoAge "emb.npy"
    (by simp [envNoAge]) (by simp [envNoAge, selStub]) rfl rfl (by simp)
    (by simp [envNoAge])

/-- C7: the claim that `decide_playback_mode` never crashes for every
state of the two files is right about the design and wrong about the
code.  Evaluated at a user whose latest version stores age 8 and whose
base embedding file exists but cannot be read as a float array, the
decider raises the `np.load` exception: only `FileNotFoundError` is
handled around that read.  A 0-d scalar value in the age-delta dict
likewise raises `IndexError` at the `delta.shape[0]` check (that state
lies outside this model's `DeltaFile` space, see its doc).  Everywhere
else the source catches `Exception` broadly (`_load_age_deltas`,
`_parse_recorded_date`, `_calculate_age`), matching the spec's blanket
no-crash guarantee; the narrow `except` and the unchecked array
dimensionality are the slips. -/
theorem C7_crash_on_unreadable_embedding :
    decide_playback_mode envCorrupt 40 = .error "np.load: unhandled exception" := by
  have hcl : envCorrupt.classify 8 40 = .future := by
    simp [envCorrupt, classifyStub]
  exact decide_eq_emb_corrupt (by simp [envCorrupt])
    (by simp [envCorrupt, selStub]) rfl rfl (by simp)
    (show resolveBaseAge envCorrupt vAged = some 8 from rfl)
    (by simp [hcl]) rfl

/-- C3 (amended): whenever `decide_playback_mode` returns AGED, the
alpha field equals CPython's `round(alpha, 2)` of the binary64 value
`alpha = min(|base_age - target_age| / 40.0, 1.0)`.  In particular an
age distance of 32 years (e.g. base 8, target 40) stores the binary64
value of 0.8 — so the program's comparison `alpha == 0.8` holds — and
every age distance of 40 years or more stores exactly 1.0 (capped,
never extrapolated further).  The field is the 2-decimal rounded
double, not the exact ratio: see the counterexample at distance 1. -/
theorem C3_aged_alpha_rounded (env : Env) (t : ℤ) (emb : List ℝ)
    (bv : VoiceVersion) (ta : ℤ) (al : ℚ) (rel : AgeRel) (rsn : String)
    (h : decide_playback_mode env t = .ok (.aged emb bv ta al rel rsn)) :
    ∃ a, resolveBaseAge env bv = some a ∧
      al = pyFloatRound 2 (min (fl64 (((|a - ta| : ℤ) : ℚ) / 40)) 1) ∧
      (|a - ta| = 32 → al = fl64 0.8) ∧ (40 ≤ |a - ta| → al = 1) := by
  obtain ⟨a, v, hres, hta, hal, hemb⟩ := decide_aged_inv h
  subst hta
  refine ⟨a, hres, hal, ?_, ?_⟩
  · intro h32
    rw [hal, h32]
    rw [show (((32 : ℤ) : ℚ) / 40) = 4/5 from by norm_num, fl64_four_fifths]
    rw [min_eq_left (by norm_num : (7205759403792794 : ℚ) / 9007199254740992 ≤ 1)]
    unfold pyFloatRound
    have hfl : ⌊(7205759403792794 / 9007199254740992 : ℚ) * 10 ^ 2⌋ = 80 := by
      rw [Int.floor_eq_iff]
      norm_num
    rw [roundHalfEven_eq_of_lt_half hfl (by push_cast; norm_num)]
    rw [show (((80 : ℤ) : ℚ) / 10 ^ 2) = 4/5 from by norm_num]
    rw [show (0.8 : ℚ) = 4/5 from by norm_num]
  · intro h40
    have hge : (1 : ℚ) ≤ ((|a - ta| : ℤ) : ℚ) / 40 := by
      rw [le_div_iff₀ (by norm_num : (0 : ℚ) < 40)]
      have h40q : (40 : ℚ) ≤ ((|a - ta| : ℤ) : ℚ) := by exact_mod_cast h40
      linarith
    rw [hal, min_eq_right (one_le_fl64 hge), pyFloatRound_two_one]

/-- Counterexample to C3 as stated: at age distance 1 (base 8, target
9) the binary64 quotient `1/40.0` is strictly greater than 0.025, so
CPython's `round(alpha, 2)` stores the binary64 value of 0.03.  The
stored field therefore differs both from `min(|8 - 9| / 40.0, 1.0)` —
the binary64 value nearest 1/40, which is what the program computes —
and from the exact rational 1/40: the field is the 2-decimal rounded
double, not the ratio the claim asserts. -/
theorem C3_counterexample_alpha_is_rounded :
    alphaOf (decide_playback_mode envAged 9) = some (fl64 0.03) ∧
    fl64 0.03 ≠ min (fl64 (((|(8 : ℤ) - 9| : ℤ) : ℚ) / 40)) 1 ∧
    fl64 0.03 ≠ 1/40 := by
  refine ⟨?_, ?_, ?_⟩
  · have hcl : envAged.classify 8 9 = .future := by
      simp [envAged, classifyStub]
    have h := decide_eq_aged
      (show envAged.versions ≠ [] by simp [envAged])
      (show (envAged.select envAged.versions 9).mode ≠ some "RECORDED" by
        simp [envAged, selStub])
      (show envAged.latest = some vAged from rfl)
      (show vAged.embedding_path = some "emb.npy" from rfl)
      (show "emb.npy" ≠ "" by simp)
      (show resolveBaseAge envAged vAged = some 8 from rfl)
      (show envAged.classify 8 9 ≠ .same by simp [hcl])
      (show envAged.loadEmb "emb.npy" = .ok [1] by simp [envAged])
      (show loadAgeDeltas envAged.deltas =
        some [("children_to_adult", [0]), ("adult_to_children", [0])] from rfl)
      (by simp)
      (show List.lookup (if envAged.classify 8 9 = .future then "children_to_adult"
          else "adult_to_children")
          [("children_to_adult", [0]), ("adult_to_children", [0])] = some [0] by
        simp [hcl, List.lookup])
      (show ([0] : List ℝ).length = ([1] : List ℝ).length from rfl)
    rw [h]
    show some (pyFloatRound 2 (min (fl64 (((|(8 : ℤ) - 9| : ℤ) : ℚ) / 40)) 1)) =
      some (fl64 0.03)
    rw [show (((|(8 : ℤ) - 9| : ℤ) : ℚ) / 40) = 1/40 from by norm_num,
      fl64_one_fortieth]
    rw [min_eq_left (by norm_num : (7205759403792794 : ℚ) / 288230376151711744 ≤ 1)]
    unfold pyFloatRound
    have hfl : ⌊(7205759403792794 / 288230376151711744 : ℚ) * 10 ^ 2⌋ = 2 := by
      rw [Int.floor_eq_iff]
      norm_num
    rw [roundHalfEven_eq_of_half_lt hfl (by push_cast; norm_num)]
    rw [show ((((2 : ℤ) + 1 : ℤ) : ℚ) / 10 ^ 2) = 0.03 from by push_cast; norm_num]
  · rw [show (((|(8 : ℤ) - 9| : ℤ) : ℚ) / 40) = 1/40 from by norm_num,
      fl64_one_fortieth,
      show (0.03 : ℚ) = 3/100 from by norm_num, fl64_three_hundredths]
    rw [min_eq_left (by norm_num : (7205759403792794 : ℚ) / 288230376151711744 ≤ 1)]
    norm_num
  · rw [show (0.03 : ℚ) = 3/100 from by norm_num, fl64_three_hundredths]
    norm_num

/-- Witness for the amended C3 at the benign concrete environment
(base age 8, target 40): the instantiated conclusion, obtained by
applying the theorem to the evaluated decision. -/
theorem C3_aged_alpha_rounded_witness :
    ∃ a, resolveBaseAge envAged vAged = some a ∧
      alphaA = pyFloatRound 2 (min (fl64 (((|a - 40| : ℤ) : ℚ) / 40)) 1) ∧
      (|a - 40| = 32 → alphaA = fl64 0.8) ∧ (40 ≤ |a - 40| → alphaA = 1) :=
  C3_aged_alpha_rounded envAged 40 agedEmbA vAged 40 alphaA .future
    "age_delta_applied" decide_envAged

/-- C10: the [0,120] sanity rejection applies only to ages derived from
`date_of_birth` — a stored `age_at_recording` is used as base age with
no range check at all, so for every stored integer age (below 0 and
above 120 included) the decider still attempts aging and returns an
AGED decision whose alpha is capped at 1, rather than the
`missing_base_age_fallback_recorded` fallback. -/
theorem C10_stored_age_skips_range_check (env : Env) (t a : ℤ)
    (base : VoiceVersion) (p : String) (raw delta : List ℝ)
    (ds : List (String × List ℝ))
    (h1 : env.versions ≠ [])
    (h2 : (env.select env.versions t).mode ≠ some "RECORDED")
    (h3 : env.latest = some base)
    (h4 : base.embedding_path = some p) (h5 : p ≠ "")
    (hage : base.age_at_recording = some a)
    (h7 : env.classify a t ≠ .same) (h8 : env.loadEmb p = .ok raw)
    (h9 : loadAgeDeltas env.deltas = some ds) (h10 : ds ≠ [])
    (h11 : ds.lookup (if env.classify a t = .future then "children_to_adult"
      else "adult_to_children") = some delta)
    (h12 : delta.length = raw.length) :
    ∃ emb, decide_playback_mode env t =
        .ok (.aged emb base t
          (pyFloatRound 2 (min (fl64 (((|a - t| : ℤ) : ℚ) / 40)) 1))
          (env.classify a t) "age_delta_applied") ∧
      pyFloatRound 2 (min (fl64 (((|a - t| : ℤ) : ℚ) / 40)) 1) ≤ 1 := by
  have h6 : resolveBaseAge env base = some a := by
    unfold resolveBaseAge
    rw [hage]
  exact ⟨_, decide_eq_aged h1 h2 h3 h4 h5 h6 h7 h8 h9 h10 h11 h12,
    pyFloatRound_le_one (min_le_right _ _)⟩

/-- Witness for C10 at a stored age of 300 (far above the [0,120]
derived-age window): the decider still produces an AGED decision. -/
theorem C10_stored_age_skips_range_check_witness :
    ∃ emb, decide_playback_mode envBigAge 40 =
        .ok (.aged emb vBigAge 40
          (pyFloatRound 2 (min (fl64 (((|(300 : ℤ) - 40| : ℤ) : ℚ) / 40)) 1))
          (envBigAge.classify 300 40) "age_delta_applied") ∧
      pyFloatRound 2 (min (fl64 (((|(300 : ℤ) - 40| : ℤ) : ℚ) / 40)) 1) ≤ 1 := by
  have hcl : envBigAge.classify 300 40 = .past := by
    simp [envBigAge, classifyStub]
  exact C10_stored_age_skips_range_check envBigAge 40 300 vBigAge "emb.npy"
    [1] [0] [("children_to_adult", [0]), ("adult_to_children", [0])]
    (by simp [envBigAge]) (by simp [envBigAge, selStub]) rfl rfl (by simp)
    rfl (by simp [hcl]) (by simp [envBigAge]) rfl (by simp)
    (by simp [hcl, List.lookup]) rfl

theorem l2norm_nonneg (v : List ℝ) : 0 ≤ l2norm v := Real.sqrt_nonneg _

theorem l2norm_singleton (x : ℝ) : l2norm [x] = |x| := by
  simp [l2norm, Real.sqrt_sq_eq_abs]

theorem l2normalize_singleton (x : ℝ) :
    l2normalize [x] = [x / (|x| + 1e-12)] := by
  simp [l2normalize, l2norm_singleton]

theorem sum_sq_map_div (v : List ℝ) (d : ℝ) :
    ((v.map (fun x => x / d)).map (fun x => x ^ 2)).sum =
      (v.map (fun x => x ^ 2)).sum / d ^ 2 := by
  induction v with
  | nil => simp
  | cons a l ih =>
    simp only [List.map_cons, List.sum_cons, ih]
    ring

theorem sum_sq_nonneg (v : List ℝ) : 0 ≤ (v.map (fun x => x ^ 2)).sum := by
  apply List.sum_nonneg
  intro x hx
  obtain ⟨y, _, rfl⟩ := List.mem_map.mp hx
  positivity

theorem l2norm_l2normalize (v : List ℝ) :
    l2norm (l2normalize v) = l2norm v / (l2norm v + 1e-12) := by
  have hd : (0 : ℝ) < l2norm v + 1e-12 := by
    have h1 := l2norm_nonneg v
    have h2 : (0 : ℝ) < 1e-12 := by norm_num
    linarith
  show Real.sqrt (((v.map fun x => x / (l2norm v + 1e-12)).map
      (fun x => x ^ 2)).sum) = _
  rw [sum_sq_map_div, Real.sqrt_div (sum_sq_nonneg v), Real.sqrt_sq hd.le]
  rfl

theorem ratio_close_to_one {n : ℝ} (hn : (1e-6 : ℝ) ≤ n) :
    |n / (n + 1e-12) - 1| ≤ 1e-6 := by
  have hd : (0 : ℝ) < n + 1e-12 := by linarith [show (0:ℝ) < 1e-12 by norm_num]
  have he : n / (n + 1e-12) - 1 = -(1e-12 / (n + 1e-12)) := by
    field_simp
  rw [he, abs_neg, abs_of_nonneg (by positivity)]
  rw [div_le_iff₀ hd]
  nlinarith

/-- C8 (amended): every AGED embedding returned by
`decide_playback_mode` is the epsilon-guarded normalization of
`base_emb + alpha * delta`, and its L2 norm is within 1e-6 of 1
whenever that pre-normalization vector has norm at least 1e-6 (an
adversarial delta that cancels the base embedding defeats the unit-norm
guarantee — see the counterexample). -/
theorem C8_aged_embedding_unit_norm (env : Env) (t : ℤ) (emb : List ℝ)
    (bv : VoiceVersion) (ta : ℤ) (al : ℚ) (rel : AgeRel) (rsn : String)
    (h : decide_playback_mode env t = .ok (.aged emb bv ta al rel rsn)) :
    ∃ v, emb = l2normalize v ∧
      ((1e-6 : ℝ) ≤ l2norm v → |l2norm emb - 1| ≤ 1e-6) := by
  obtain ⟨a, v, hres, hta, hal, hemb⟩ := decide_aged_inv h
  refine ⟨v, hemb, fun hn => ?_⟩
  rw [hemb, l2norm_l2normalize]
  exact ratio_close_to_one hn

/-- Witness for the amended C8 at the benign concrete environment. -/
theorem C8_aged_embedding_unit_norm_witness :
    ∃ v, agedEmbA = l2normalize v ∧
      ((1e-6 : ℝ) ≤ l2norm v → |l2norm agedEmbA - 1| ≤ 1e-6) :=
  C8_aged_embedding_unit_norm envAged 40 agedEmbA vAged 40 alphaA .future
    "age_delta_applied" decide_envAged

theorem decide_envCancel :
    decide_playback_mode envCancel 40 =
      .ok (.aged
        (l2normalize (List.zipWith (· + ·) (l2normalize [1])
          (([-1] : List ℝ).map
            (fun x => ((min (fl64 (((|(0 : ℤ) - 40| : ℤ) : ℚ) / 40)) 1 : ℚ) : ℝ) * x))))
        vZeroAge 40 (pyFloatRound 2 (min (fl64 (((|(0 : ℤ) - 40| : ℤ) : ℚ) / 40)) 1))
        .future "age_delta_applied") := by
  have hcl : envCancel.classify 0 40 = .future := by
    simp [envCancel, classifyStub]
  have h := decide_eq_aged
    (show envCancel.versions ≠ [] by simp [envCancel])
    (show (envCancel.select envCancel.versions 40).mode ≠ some "RECORDED" by
      simp [envCancel, selStub])
    (show envCancel.latest = some vZeroAge from rfl)
    (show vZeroAge.embedding_path = some "emb.npy" from rfl)
    (show "emb.npy" ≠ "" by simp)
    (show resolveBaseAge envCancel vZeroAge = some 0 from rfl)
    (show envCancel.classify 0 40 ≠ .same by simp [hcl])
    (show envCancel.loadEmb "emb.npy" = .ok [1] by simp [envCancel])
    (show loadAgeDeltas envCancel.deltas =
      some [("children_to_adult", [-1]), ("adult_to_children", [0])] from rfl)
    (by simp)
    (show List.lookup (if envCancel.classify 0 40 = .future then "children_to_adult"
        else "adult_to_children")
        [("children_to_adult", [-1]), ("adult_to_children", [0])] = some [-1] by
      simp [hcl, List.lookup])
    (show ([-1] : List ℝ).length = ([1] : List ℝ).length from rfl)
  rw [h, hcl]

/-- Counterexample to C8 as stated: with a valid unit base embedding
`[1]` and a matching-dimension delta `[-1]` at age distance 40
(alpha 1), the returned AGED embedding has L2 norm `1/(2 + 1e-12)`,
about one half — not within 1e-6 of 1. -/
theorem C8_counterexample_cancelling_delta :
    envCancel.loadEmb "emb.npy" = .ok [1] ∧ l2norm [1] = 1 ∧
    embNormOf (decide_playback_mode envCancel 40) =
      some (1 / (2 + 1e-12)) ∧
    ¬ (|1 / (2 + (1e-12 : ℝ)) - 1| ≤ 1e-6) := by
  refine ⟨by simp [envCancel], by simp [l2norm_singleton], ?_, ?_⟩
  · rw [decide_envCancel]
    show some (l2norm (l2normalize (List.zipWith (· + ·) (l2normalize [1])
      (([-1] : List ℝ).map
        (fun x => ((min (fl64 (((|(0 : ℤ) - 40| : ℤ) : ℚ) / 40)) 1 : ℚ) : ℝ) * x))))) = _
    have hα : ((min (fl64 (((|(0 : ℤ) - 40| : ℤ) : ℚ) / 40)) 1 : ℚ) : ℝ) = 1 := by
      rw [show (((|(0 : ℤ) - 40| : ℤ) : ℚ) / 40) = 1 from by norm_num, fl64_one]
      norm_num
    have hbase : l2normalize [1] = [1 / (1 + 1e-12)] := by
      rw [l2normalize_singleton]
      norm_num
    have hmap : (([-1] : List ℝ).map
        (fun x => ((min (fl64 (((|(0 : ℤ) - 40| : ℤ) : ℚ) / 40)) 1 : ℚ) : ℝ) * x)) =
        [(-1 : ℝ)] := by
      simp only [List.map_cons, List.map_nil, hα]
      norm_num
    rw [hbase, hmap]
    have hzip : List.zipWith (· + ·) ([1 / (1 + 1e-12)] : List ℝ) [(-1 : ℝ)] =
        [1 / (1 + 1e-12) + -1] := by
      simp
    rw [hzip]
    have hx : (1 / (1 + 1e-12) + -1 : ℝ) = -(1e-12 / (1 + 1e-12)) := by
      have h0 : (1 + 1e-12 : ℝ) ≠ 0 := by norm_num
      field_simp
    rw [hx]
    have habs : |(-(1e-12 / (1 + 1e-12)) : ℝ)| = 1e-12 / (1 + 1e-12) := by
      rw [abs_neg, abs_of_nonneg (by positivity)]
    rw [l2normalize_singleton, habs, l2norm_singleton]
    have hd : (0 : ℝ) < 1e-12 / (1 + 1e-12) + 1e-12 := by positivity
    rw [abs_div, habs, abs_of_pos hd]
    congr 1
    rw [div_eq_div_iff hd.ne' (by norm_num : (2 + 1e-12 : ℝ) ≠ 0)]
    have h0 : (1 + 1e-12 : ℝ) ≠ 0 := by norm_num
    field_simp
    ring
  · rw [abs_of_neg (by norm_num : (1 / (2 + (1e-12 : ℝ)) - 1) < 0)]
    norm_num

end Decider
